import Mathlib

/-!
Verification development for the tezedge Merkle context store
(`storage/src/merkle_storage.rs`), the chain manager
(`shell/src/chain_manager.rs`) and the RPC block-id parser
(`rpc/src/helpers.rs`).

The Rust code is shallowly embedded: byte strings are `List Nat` (each
element a byte value), machine integers are `Nat`/`Int` with explicit
`% 2^w` where a cast occurs, `BTreeMap` is a sorted association list,
`HashMap` is an association list, and the mutable `MerkleStorage` struct
becomes explicit state passing in the `Except` monad.  Rust panics
(`panic!`, `assert!`, `unwrap` on `None`, out-of-bounds indexing) are
modelled by a distinguished `RunError.panicked` result so that they stay
observably different from returned `MerkleError`s.  The BLAKE2b digest is
kept abstract: every hashing function takes the digest function `blake`
as a parameter and applies it to exactly the byte framing the Rust code
feeds into `VarBlake2b`.
-/

namespace Tezedge

/-- Big-endian byte encoding of a `u64` value, as produced by Rust's
`(x as u64).to_be_bytes()`: the value is reduced mod `2^64` and emitted
as 8 bytes, most significant first. -/
def be64 (n : Nat) : List Nat :=
  let m := n % 2 ^ 64
  [m / 2 ^ 56 % 256, m / 2 ^ 48 % 256, m / 2 ^ 40 % 256, m / 2 ^ 32 % 256,
   m / 2 ^ 24 % 256, m / 2 ^ 16 % 256, m / 2 ^ 8 % 256, m % 256]

/-- Model of `HASH_LEN` from merkle_storage.rs: digests are 32 bytes wide. -/
def HASH_LEN : Nat := 32

/-- A path segment (`String` in Rust; hashing uses its raw bytes, so the
model keeps segments as byte lists directly). -/
abbrev Segment := List Nat

/-- Model of `ContextKey` from merkle_storage.rs: an ordered list of path segments. -/
abbrev ContextKey := List Segment

/-- Model of `ContextValue` from merkle_storage.rs: raw value bytes. -/
abbrev ContextValue := List Nat

/-- Model of `EntryHash = [u8; 32]` in Rust.  The model keeps it as a byte list;
the Rust type additionally fixes the length to 32. -/
abbrev EntryHash := List Nat

/-- Model of `NodeKind` from merkle_storage.rs. -/
inductive NodeKind
  | NonLeaf
  | Leaf
deriving DecidableEq

/-- Model of `Node` from merkle_storage.rs: a child pointer inside a tree. -/
structure Node where
  node_kind : NodeKind
  entry_hash : EntryHash
deriving DecidableEq

/-- Model of `Tree = BTreeMap<String, Node>`: modelled as an association list kept
sorted by segment bytes, which is exactly the `BTreeMap` iteration
order used by `hash_tree`. -/
abbrev Tree := List (Segment × Node)

/-- Model of `Commit` from merkle_storage.rs.  `author`/`message` are `String`s in
Rust, hashed via `into_bytes`, so the model keeps their bytes. -/
structure Commit where
  parent_commit_hash : Option EntryHash
  root_hash : EntryHash
  time : Nat
  author : List Nat
  message : List Nat
deriving DecidableEq

/-- Model of `Entry` from merkle_storage.rs. -/
inductive Entry
  | tree (t : Tree)
  | blob (v : ContextValue)
  | commit (c : Commit)
deriving DecidableEq

/-- Strict byte-lexicographic order on segments, the order `BTreeMap`
uses for `String` keys (Rust compares strings by their bytes). -/
def segLtB : Segment → Segment → Bool
  | [], [] => false
  | [], _ :: _ => true
  | _ :: _, [] => false
  | a :: as, b :: bs => if a < b then true else if b < a then false else segLtB as bs

/-- Model of `BTreeMap::get` on the sorted association list. -/
def treeGet : Tree → Segment → Option Node
  | [], _ => none
  | (k, n) :: rest, key => if k = key then some n else treeGet rest key

/-- Model of `BTreeMap::insert`: inserts in sorted position, replacing an existing
binding of the same key. -/
def treeInsert : Tree → Segment → Node → Tree
  | [], key, node => [(key, node)]
  | (k, n) :: rest, key, node =>
    if segLtB key k then (key, node) :: (k, n) :: rest
    else if k = key then (key, node) :: rest
    else (k, n) :: treeInsert rest key node

/-- Model of `BTreeMap::remove` (the removed value itself is unused by the code). -/
def treeRemove : Tree → Segment → Tree
  | [], _ => []
  | (k, n) :: rest, key => if k = key then rest else (k, n) :: treeRemove rest key

/-- Model of `encode_irmin_node_kind` from merkle_storage.rs. -/
def encode_irmin_node_kind : NodeKind → List Nat
  | NodeKind.NonLeaf => [0, 0, 0, 0, 0, 0, 0, 0]
  | NodeKind.Leaf => [255, 0, 0, 0, 0, 0, 0, 0]

/-- The exact byte sequence `hash_tree` feeds into the BLAKE2b hasher:
`u64 N` (big endian) then, for each entry in `BTreeMap` iteration order,
the 8-byte kind tag, the `u8` segment length (`k.len() as u8`), the
segment bytes, `u64(HASH_LEN)` and the child hash bytes. -/
def hash_tree_input (t : Tree) : List Nat :=
  be64 t.length ++
    t.flatMap fun kv =>
      encode_irmin_node_kind kv.2.node_kind ++ [kv.1.length % 256] ++ kv.1 ++
        be64 HASH_LEN ++ kv.2.entry_hash

/-- The exact byte sequence `hash_blob` feeds into the hasher:
`u64 len || bytes`. -/
def hash_blob_input (v : ContextValue) : List Nat :=
  be64 v.length ++ v

/-- The exact byte sequence `hash_commit` feeds into the hasher:
`u64(HASH_LEN) || root_hash`, then `u64(0)` when there is no parent and
otherwise `u64(1) || u64(parent.len()) || parent`, then `u64 time`,
`u64 author_len || author`, `u64 msg_len || message`. -/
def hash_commit_input (c : Commit) : List Nat :=
  be64 HASH_LEN ++ c.root_hash ++
    (match c.parent_commit_hash with
     | none => be64 0
     | some p => be64 1 ++ be64 p.length ++ p) ++
    be64 c.time ++
    be64 c.author.length ++ c.author ++
    be64 c.message.length ++ c.message

section MerkleModel

variable (blake : List Nat → EntryHash)

/-- Model of `hash_tree` from merkle_storage.rs: the 32-byte variable-output
BLAKE2b digest (abstracted as `blake`) of `hash_tree_input`. -/
def hash_tree (t : Tree) : EntryHash := blake (hash_tree_input t)

/-- Model of `MerkleStorage::hash_blob`. -/
def hash_blob (v : ContextValue) : EntryHash := blake (hash_blob_input v)

/-- Model of `MerkleStorage::hash_commit`. -/
def hash_commit (c : Commit) : EntryHash := blake (hash_commit_input c)

/-- Model of `MerkleStorage::hash_entry`. -/
def hash_entry : Entry → EntryHash
  | Entry.commit c => hash_commit blake c
  | Entry.tree t => hash_tree blake t
  | Entry.blob v => hash_blob blake v

end MerkleModel

/-- Framing of a Blob written from the spec's words: "big-endian u64
length followed by the bytes". -/
def spec_blob_framing (v : ContextValue) : List Nat :=
  be64 v.length ++ v

/-- The spec's 8-byte kind tag: all zeros for NonLeaf, `FF` then seven
zeros for Leaf. -/
def spec_kind_tag : NodeKind → List Nat
  | NodeKind.NonLeaf => [0x00, 0x00, 0x00, 0x00, 0x00, 0x00, 0x00, 0x00]
  | NodeKind.Leaf => [0xFF, 0x00, 0x00, 0x00, 0x00, 0x00, 0x00, 0x00]

/-- One tree entry framed from the spec's words: "the 8-byte kind tag,
the u8 segment length, the segment bytes, u64(32), and the 32-byte child
hash". -/
def spec_tree_entry_framing (seg : Segment) (node : Node) : List Nat :=
  spec_kind_tag node.node_kind ++ [seg.length % 256] ++ seg ++ be64 32 ++ node.entry_hash

/-- Entry list framed from the spec's words, in segment order. -/
def spec_tree_entries_framing : Tree → List Nat
  | [] => []
  | (seg, node) :: rest => spec_tree_entry_framing seg node ++ spec_tree_entries_framing rest

/-- Framing of a Tree written from the spec's words: "big-endian u64
entry count then, for each entry in segment order", the per-entry frame. -/
def spec_tree_framing (t : Tree) : List Nat :=
  be64 t.length ++ spec_tree_entries_framing t

/-- Framing of a Commit written from the spec's words: "u64(32) and the
root hash, then u64(0) if there is no parent or u64(1), u64(32) and the
parent hash otherwise, then u64 time, u64 author length, author bytes,
u64 message length, message bytes". -/
def spec_commit_framing (c : Commit) : List Nat :=
  be64 32 ++ c.root_hash ++
    (match c.parent_commit_hash with
     | none => be64 0
     | some p => be64 1 ++ be64 32 ++ p) ++
    be64 c.time ++
    be64 c.author.length ++ c.author ++
    be64 c.message.length ++ c.message

/-- The identity digest used to instantiate the abstract hash function on
concrete runs: it is injective, so distinct framings yield distinct
"hashes", which is the collision-freeness the real BLAKE2b provides. -/
def idHash : List Nat → EntryHash := fun l => l

/-- Model of `MerkleError` from merkle_storage.rs.  The string payloads that Rust
builds with `key_to_string`/`bytes_to_string` are kept structured; the
`DBError`, `SerializationError` and `HashConversionError` variants can
never arise in the model (the backend map and the serializer are total)
but are retained for completeness. -/
inductive MerkleError
  | DBError
  | SerializationError
  | CommitRootNotFound
  | MissingAncestorCommit
  | ValueIsNotABlob (key : ContextKey)
  | FoundUnexpectedStructure (sought : String) (found : String)
  | EntryNotFound (hash : EntryHash)
  | EntryNotFoundInStaging (hash : EntryHash)
  | ValueNotFound (key : ContextKey)
  | KeyEmpty
  | HashConversionError
deriving DecidableEq

/-- Result alphabet of the model: either a returned `MerkleError` (Rust's
`Err`) or a Rust panic (`panic!`, failed `assert`, `unwrap` on `None`,
out-of-bounds indexing), which the model keeps distinguishable. -/
inductive RunError
  | merkle (e : MerkleError)
  | panicked (msg : String)
deriving DecidableEq

/-- Model of `Action` from merkle_storage.rs (the `SetAction`/`CopyAction`/
`RemoveAction` payload structs are inlined). -/
inductive Action
  | set (key : ContextKey) (value : ContextValue)
  | copy (from_key : ContextKey) (to_key : ContextKey)
  | remove (key : ContextKey)
deriving DecidableEq

/-- Model of `HashMap::get` on an association list. -/
def assocGet {κ ν : Type} [DecidableEq κ] : List (κ × ν) → κ → Option ν
  | [], _ => none
  | (k, v) :: rest, key => if k = key then some v else assocGet rest key

/-- Model of `HashMap::insert` on an association list: replaces an existing
binding, otherwise appends. -/
def assocInsert {κ ν : Type} [DecidableEq κ] : List (κ × ν) → κ → ν → List (κ × ν)
  | [], key, val => [(key, val)]
  | (k, v) :: rest, key, val =>
    if k = key then (key, val) :: rest else (k, v) :: assocInsert rest key val

/-- Model of `HashMap::remove` on an association list. -/
def assocRemove {κ ν : Type} [DecidableEq κ] : List (κ × ν) → κ → List (κ × ν)
  | [], _ => []
  | (k, v) :: rest, key => if k = key then rest else (k, v) :: assocRemove rest key

/-- Model of `HashMap::contains_key` on an association list. -/
def assocContains {κ ν : Type} [DecidableEq κ] (l : List (κ × ν)) (key : κ) : Bool :=
  (assocGet l key).isSome

/-- The mutable fields of the `MerkleStorage` struct, made explicit.  The
RocksDB column family behind `db` becomes an association list from hash
to (deserialized) `Entry`; the `perf_stats` field and timing calls are
omitted (they never influence any returned value). -/
structure MerkleState where
  db : List (EntryHash × Entry)
  current_stage_tree : Option Tree
  current_stage_tree_hash : Option EntryHash
  staged : List (EntryHash × Nat × Entry)
  staged_indices : List (EntryHash × Nat)
  last_commit_hash : Option EntryHash
  actions : List Action
  staging_context_hashes : List EntryHash
deriving DecidableEq

/-- Model of `MerkleStorage::new` over an empty backend. -/
def emptyStore : MerkleState :=
  { db := []
    current_stage_tree := none
    current_stage_tree_hash := none
    staged := []
    staged_indices := []
    last_commit_hash := none
    actions := []
    staging_context_hashes := [] }

/-- Model of `MerkleStorage::staged_get_idx`: looks the hash up in
`staged_indices` and re-checks (`assert_eq`) that the indexed `staged`
slot really carries that hash; the failed assert and an out-of-range
index are Rust panics. -/
def staged_get_idx (s : MerkleState) (hash : EntryHash) : Except RunError (Option Nat) :=
  match assocGet s.staged_indices hash with
  | some idx =>
    match s.staged.get? idx with
    | some e =>
      if e.1 = hash then Except.ok (some idx)
      else Except.error (RunError.panicked "staged_get_idx: assert staged[idx].0 == hash")
    | none => Except.error (RunError.panicked "staged_get_idx: index out of bounds")
  | none => Except.ok none

/-- Model of `MerkleStorage::staged_get`. -/
def staged_get (s : MerkleState) (hash : EntryHash) : Except RunError (Option Entry) := do
  match ← staged_get_idx s hash with
  | some idx =>
    match s.staged.get? idx with
    | some e => Except.ok (some e.2.2)
    | none => Except.error (RunError.panicked "staged_get: index out of bounds")
  | none => Except.ok none

/-- Model of `MerkleStorage::increase_refcnt_for_staging_entry`. -/
def increase_refcnt_for_staging_entry (s : MerkleState) (hash : EntryHash) :
    Except RunError MerkleState := do
  match ← staged_get_idx s hash with
  | some idx =>
    match s.staged.get? idx with
    | some (h, cnt, e) => Except.ok { s with staged := s.staged.set idx (h, cnt + 1, e) }
    | none => Except.error (RunError.panicked "increase_refcnt: index out of bounds")
  | none => Except.error (RunError.merkle (MerkleError.EntryNotFoundInStaging hash))

/-- Model of `MerkleStorage::put_to_staging_area`: an existing entry only gets its
reference count bumped; a new entry is appended with count 1 and indexed. -/
def put_to_staging_area (s : MerkleState) (key : EntryHash) (value : Entry) :
    Except RunError (Option Nat × MerkleState) := do
  match ← staged_get_idx s key with
  | some idx =>
    let s ← increase_refcnt_for_staging_entry s key
    Except.ok (some idx, s)
  | none =>
    let idx := s.staged.length
    Except.ok (some idx,
      { s with staged := s.staged ++ [(key, 1, value)],
               staged_indices := assocInsert s.staged_indices key idx })

/-- Model of `MerkleStorage::get_entry_db`: backend lookup only. -/
def get_entry_db (s : MerkleState) (hash : EntryHash) : Except RunError Entry :=
  match assocGet s.db hash with
  | none => Except.error (RunError.merkle (MerkleError.EntryNotFound hash))
  | some e => Except.ok e

/-- Model of `MerkleStorage::get_entry`: staging area first, then the backend. -/
def get_entry (s : MerkleState) (hash : EntryHash) : Except RunError Entry := do
  match ← staged_get s hash with
  | none => get_entry_db s hash
  | some e => Except.ok e

/-- Model of `MerkleStorage::get_tree`. -/
def get_tree (s : MerkleState) (hash : EntryHash) : Except RunError Tree := do
  match ← get_entry s hash with
  | Entry.tree t => Except.ok t
  | Entry.blob _ => Except.error (RunError.merkle (MerkleError.FoundUnexpectedStructure "tree" "blob"))
  | Entry.commit _ => Except.error (RunError.merkle (MerkleError.FoundUnexpectedStructure "tree" "commit"))

/-- Model of `MerkleStorage::get_commit`. -/
def get_commit (s : MerkleState) (hash : EntryHash) : Except RunError Commit := do
  match ← get_entry s hash with
  | Entry.commit c => Except.ok c
  | Entry.tree _ => Except.error (RunError.merkle (MerkleError.FoundUnexpectedStructure "commit" "tree"))
  | Entry.blob _ => Except.error (RunError.merkle (MerkleError.FoundUnexpectedStructure "commit" "blob"))

/-- Model of `MerkleStorage::get_non_leaf`. -/
def get_non_leaf (hash : EntryHash) : Node :=
  { node_kind := NodeKind.NonLeaf, entry_hash := hash }

/-- Model of `MerkleStorage::find_tree`: walk `key` down from `root`, returning a
copy of the subtree; a missing child or a blob along the way yields the
empty tree, a commit is a structural error. -/
def find_tree (s : MerkleState) (root : Tree) : List Segment → Except RunError Tree
  | [] => Except.ok root
  | k :: rest =>
    match treeGet root k with
    | none => Except.ok []
    | some child => do
      match ← get_entry s child.entry_hash with
      | Entry.tree t => find_tree s t rest
      | Entry.blob _ => Except.ok []
      | Entry.commit _ =>
        Except.error (RunError.merkle (MerkleError.FoundUnexpectedStructure "tree" "commit"))

/-- Model of `MerkleStorage::get_staged_root`: returns the current stage tree; on
a fresh store it stages an empty tree and returns it (note that, as in
the source, it does not set `current_stage_tree` in that case). -/
def get_staged_root (blake : List Nat → EntryHash) (s : MerkleState) :
    Except RunError (Tree × MerkleState) := do
  match s.current_stage_tree with
  | none =>
    let tree : Tree := []
    let (_, s) ← put_to_staging_area s (hash_tree blake tree) (Entry.tree tree)
    Except.ok (tree, s)
  | some tree => Except.ok (tree, s)

/-- Model of `MerkleStorage::add_empty_tree_to_staging`. -/
def add_empty_tree_to_staging (blake : List Nat → EntryHash) (s : MerkleState) :
    Except RunError (Option Nat × MerkleState) :=
  put_to_staging_area s (hash_tree blake []) (Entry.tree [])

/-- Model of `MerkleStorage::ensure_stage_tree_exists`: creates and stages an
empty current stage tree when none exists. -/
def ensure_stage_tree_exists (blake : List Nat → EntryHash) (s : MerkleState) :
    Except RunError MerkleState := do
  match s.current_stage_tree with
  | none =>
    let tree : Tree := []
    let hash := hash_tree blake tree
    let s := { s with current_stage_tree := some tree,
                      current_stage_tree_hash := some hash,
                      staging_context_hashes := s.staging_context_hashes ++ [hash] }
    let (_, s) ← put_to_staging_area s hash (Entry.tree tree)
    Except.ok s
  | some _ => Except.ok s

/-- Model of `MerkleStorage::get_from_tree`: `full_path.pop()` yields `KeyEmpty`
on an empty key, otherwise the tree at the parent path is located and
the final segment must name a blob. -/
def get_from_tree (s : MerkleState) (root_hash : EntryHash) (key : ContextKey) :
    Except RunError ContextValue :=
  match key.getLast? with
  | none => Except.error (RunError.merkle MerkleError.KeyEmpty)
  | some file => do
    let path := key.dropLast
    let root ← get_tree s root_hash
    let node ← find_tree s root path
    match treeGet node file with
    | none => Except.error (RunError.merkle (MerkleError.ValueNotFound key))
    | some n =>
      match ← get_entry s n.entry_hash with
      | Entry.blob b => Except.ok b
      | _ => Except.error (RunError.merkle (MerkleError.ValueIsNotABlob key))

/-- Model of `MerkleStorage::get`: reads from the current staged root (the state
is returned because `get_staged_root` can stage an empty tree). -/
def get (blake : List Nat → EntryHash) (s : MerkleState) (key : ContextKey) :
    Except RunError (ContextValue × MerkleState) := do
  let (root, s) ← get_staged_root blake s
  let root_hash := hash_tree blake root
  let v ← get_from_tree s root_hash key
  Except.ok (v, s)

/-- Model of `MerkleStorage::get_history`: value under `key` in the commit named
by `commit_hash`. -/
def get_history (s : MerkleState) (commit_hash : EntryHash) (key : ContextKey) :
    Except RunError ContextValue := do
  let commit ← get_commit s commit_hash
  get_from_tree s commit.root_hash key

/-- Model of `MerkleStorage::set`: only appends a `Set` action to the action log. -/
def set (s : MerkleState) (key : ContextKey) (value : ContextValue) :
    Except RunError (Unit × MerkleState) :=
  Except.ok ((), { s with actions := s.actions ++ [Action.set key value] })

/-- Model of `MerkleStorage::delete`: only appends a `Remove` action. -/
def delete (s : MerkleState) (key : ContextKey) :
    Except RunError (Unit × MerkleState) :=
  Except.ok ((), { s with actions := s.actions ++ [Action.remove key] })

/-- Model of `MerkleStorage::copy`: only appends a `Copy` action. -/
def copy (s : MerkleState) (from_key : ContextKey) (to_key : ContextKey) :
    Except RunError (Unit × MerkleState) :=
  Except.ok ((), { s with actions := s.actions ++ [Action.copy from_key to_key] })

/-- Model of `MerkleStorage::checkout`: loads the commit and its root tree, makes
them current, resets `staged`/`staged_indices` — and, exactly as in the
source, leaves the `actions` log untouched. -/
def checkout (s : MerkleState) (context_hash : EntryHash) :
    Except RunError (Unit × MerkleState) := do
  let commit ← get_commit s context_hash
  let tree ← get_tree s commit.root_hash
  Except.ok ((), { s with current_stage_tree := some tree,
                          current_stage_tree_hash := some commit.root_hash,
                          last_commit_hash := some context_hash,
                          staged := [],
                          staged_indices := [] })

/-- Model of `MerkleStorage::find_tree_staging`: walk `key` from the staged entry
at `root_idx`, pulling entries from the backend into the staging area as
needed; returns the staged index of the found subtree, or `none` when a
segment is missing or a blob is hit. -/
def find_tree_staging (s : MerkleState) (root_idx : Nat) :
    List Segment → Except RunError (Option Nat × MerkleState)
  | [] => Except.ok (some root_idx, s)
  | k :: rest =>
    match s.staged.get? root_idx with
    | none => Except.error (RunError.panicked "find_tree_staging: index out of bounds")
    | some (_, _, root) =>
      match root with
      | Entry.tree rootT =>
        match treeGet rootT k with
        | none => Except.ok (none, s)
        | some child => do
          let entry_hash := child.entry_hash
          let (entry_idx, s) ← (do
            match ← staged_get_idx s entry_hash with
            | some idx => Except.ok (idx, s)
            | none => do
              let e ← get_entry_db s entry_hash
              let (last_idx, s) ← put_to_staging_area s entry_hash e
              match last_idx with
              | some idx => Except.ok (idx, s)
              | none => Except.error (RunError.panicked "find_tree_staging: unwrap None"))
          match s.staged.get? entry_idx with
          | none => Except.error (RunError.panicked "find_tree_staging: index out of bounds")
          | some (_, _, entry) =>
            match entry with
            | Entry.tree _ =>
              if rest.isEmpty then Except.ok (some entry_idx, s)
              else find_tree_staging s entry_idx rest
            | Entry.blob _ => Except.ok (none, s)
            | Entry.commit _ =>
              Except.error (RunError.merkle (MerkleError.FoundUnexpectedStructure "tree" "commit"))
      | _ => Except.ok (none, s)

/-- Recursive core of `MerkleStorage::compute_new_root_with_change`.  The
source recurses on `path = key[..key.len()-1]`; to make the recursion
structural the key is consumed in reverse order, so `rkey` here is the
reversed remaining key (`last :: rpath` with `path = rpath.reverse`).
All other steps mirror the source line by line: locate (or create) the
tree at `path`, copy it when shared (`refcnt > 1`) or when the staged
empty tree was reused, mutate the final segment, rehash, fix
`staged_indices`, and recurse upward, deleting the segment from the
parent when the tree became empty. -/
def compute_aux (blake : List Nat → EntryHash) (s : MerkleState) (root_hash : EntryHash) :
    List Segment → Option Node → Except RunError (EntryHash × MerkleState)
  | [], _ => Except.error (RunError.panicked "compute_aux: empty key")
  | last :: rpath, new_node => do
    let path := rpath.reverse
    let root_idx ← (do
      match ← staged_get_idx s root_hash with
      | some idx => Except.ok idx
      | none => Except.error (RunError.panicked "compute_new_root_with_change: unwrap None"))
    let (idx0, s) ← find_tree_staging s root_idx path
    let (oidx, empty_tree_existed, s) ← (do
      match idx0 with
      | some idx => Except.ok (some idx, false, s)
      | none =>
        match ← staged_get_idx s (hash_tree blake []) with
        | some idx => Except.ok (some idx, true, s)
        | none => do
          let (oi, s) ← add_empty_tree_to_staging blake s
          Except.ok (oi, false, s))
    match oidx with
    | none => Except.error (RunError.panicked "compute_new_root_with_change: idx is None")
    | some idx => do
      match s.staged.get? idx with
      | none => Except.error (RunError.panicked "compute_new_root_with_change: index out of bounds")
      | some (h0, refcnt, e0) =>
        let in_place := ¬(refcnt > 1 ∨ empty_tree_existed)
        let (idx, s) :=
          if refcnt > 1 ∨ empty_tree_existed then
            (s.staged.length, { s with staged := s.staged ++ [(h0, 1, e0)] })
          else (idx, s)
        match s.staged.get? idx with
        | none => Except.error (RunError.panicked "compute_new_root_with_change: index out of bounds")
        | some (tree_hash, rc, entry) =>
          match entry with
          | Entry.tree tree => do
            let tree :=
              match new_node with
              | none => treeRemove tree last
              | some n => treeInsert tree last n
            let new_tree_hash := hash_tree blake tree
            let old_hash := tree_hash
            let s := if in_place then { s with staged_indices := assocRemove s.staged_indices old_hash } else s
            let s := { s with staged := s.staged.set idx (new_tree_hash, rc, Entry.tree tree) }
            let tree_is_empty := tree.isEmpty
            let s ←
              if assocContains s.staged_indices new_tree_hash then
                increase_refcnt_for_staging_entry s new_tree_hash
              else
                Except.ok { s with staged_indices := assocInsert s.staged_indices new_tree_hash idx }
            if tree_is_empty then
              if rpath.isEmpty then Except.ok (new_tree_hash, s)
              else compute_aux blake s root_hash rpath none
            else
              if rpath.isEmpty then Except.ok (new_tree_hash, s)
              else compute_aux blake s root_hash rpath (some (get_non_leaf new_tree_hash))
          | _ => Except.error (RunError.panicked "compute_new_root_with_change: Entry is not a Tree")

/-- Model of `MerkleStorage::compute_new_root_with_change`.  The function opens
with `assert_eq!(key.is_empty(), false)`, so an empty key is a Rust
panic (the `if key.is_empty()` block that follows the assert in the
source is dead code). -/
def compute_new_root_with_change (blake : List Nat → EntryHash) (s : MerkleState)
    (root_hash : EntryHash) (key : List Segment) (new_node : Option Node) :
    Except RunError (EntryHash × MerkleState) :=
  if key.isEmpty then
    Except.error (RunError.panicked "compute_new_root_with_change: assert key non-empty")
  else compute_aux blake s root_hash key.reverse new_node

/-- One iteration of the action loop in
`MerkleStorage::apply_actions_to_staging_area`.  Each arm reads the
current stage tree hash (`unwrap`, a panic when absent), computes the
new root and installs it as the current stage tree. -/
def apply_action (blake : List Nat → EntryHash) (s : MerkleState) :
    Action → Except RunError MerkleState
  | Action.set key value => do
    match s.current_stage_tree_hash with
    | none => Except.error (RunError.panicked "apply_action Set: unwrap None")
    | some root_hash => do
      let blob_hash := hash_blob blake value
      let (_, s) ← put_to_staging_area s blob_hash (Entry.blob value)
      let new_node : Node := { entry_hash := blob_hash, node_kind := NodeKind.Leaf }
      let e ← get_entry s root_hash
      let (_, s) ← put_to_staging_area s root_hash e
      let (new_hash, s) ← compute_new_root_with_change blake s root_hash key (some new_node)
      let t ← get_tree s new_hash
      Except.ok { s with current_stage_tree := some t,
                         current_stage_tree_hash := some new_hash,
                         staging_context_hashes := s.staging_context_hashes ++ [new_hash] }
  | Action.copy from_key to_key => do
    match s.current_stage_tree_hash with
    | none => Except.error (RunError.panicked "apply_action Copy: unwrap None")
    | some root_hash => do
      match ← get_entry s root_hash with
      | Entry.tree root => do
        let source_tree ← find_tree s root from_key
        let source_tree_hash := hash_tree blake source_tree
        let (new_hash, s) ← compute_new_root_with_change blake s root_hash to_key
          (some (get_non_leaf source_tree_hash))
        let t ← get_tree s new_hash
        Except.ok { s with current_stage_tree := some t,
                           current_stage_tree_hash := some new_hash,
                           staging_context_hashes := s.staging_context_hashes ++ [new_hash] }
      | _ => Except.error (RunError.panicked "Action Copy(): not a tree")
  | Action.remove key => do
    match s.current_stage_tree_hash with
    | none => Except.error (RunError.panicked "apply_action Remove: unwrap None")
    | some root_hash => do
      let (new_hash, s) ← compute_new_root_with_change blake s root_hash key none
      let t ← get_tree s new_hash
      Except.ok { s with current_stage_tree := some t,
                         current_stage_tree_hash := some new_hash,
                         staging_context_hashes := s.staging_context_hashes ++ [new_hash] }

/-- Model of `MerkleStorage::apply_actions_to_staging_area`: make sure a stage
tree exists, replay the logged actions in order, then clear the log. -/
def apply_actions_to_staging_area (blake : List Nat → EntryHash) (s : MerkleState) :
    Except RunError MerkleState := do
  let s ← ensure_stage_tree_exists blake s
  let actions := s.actions
  let s ← actions.foldlM (fun s action => apply_action blake s action) s
  Except.ok { s with actions := [] }

/-- Model of `MerkleStorage::get_entries_recursively`: collects the write batch
(hash, entry) pairs for an entry and its staged descendants.  A tree
child that is not in the staging area is skipped; a commit follows its
root through `get_entry`.  The Rust recursion is unbounded, so the model
takes a fuel bound whose exhaustion is reported as a panic. -/
def get_entries_recursively (blake : List Nat → EntryHash) :
    Nat → MerkleState → Entry → Except RunError (List (EntryHash × Entry))
  | 0, _, _ => Except.error (RunError.panicked "get_entries_recursively: recursion budget exhausted")
  | Nat.succ fuel, s, entry => do
    let here := [(hash_entry blake entry, entry)]
    match entry with
    | Entry.blob _ => Except.ok here
    | Entry.tree t => do
      let rest ← t.foldlM (fun acc kv => do
        match ← staged_get s kv.2.entry_hash with
        | none => Except.ok acc
        | some e => do
          let l ← get_entries_recursively blake fuel s e
          Except.ok (acc ++ l)) []
      Except.ok (here ++ rest)
    | Entry.commit c => do
      let e ← get_entry s c.root_hash
      let l ← get_entries_recursively blake fuel s e
      Except.ok (here ++ l)

/-- Model of `MerkleStorage::persist_staged_entry_to_db`: builds the batch and
applies it to the backend in one atomic write. -/
def persist_staged_entry_to_db (blake : List Nat → EntryHash) (fuel : Nat)
    (s : MerkleState) (entry : Entry) : Except RunError MerkleState := do
  let batch ← get_entries_recursively blake fuel s entry
  Except.ok { s with db := batch.foldl (fun db kv => assocInsert db kv.1 kv.2) s.db }

/-- Model of `MerkleStorage::commit`: replay the action log, hash the staged root,
build the commit entry, stage it, persist the closure, clear the staging
area and advance `last_commit_hash`.  `fuel` bounds the persistence
recursion only. -/
def commit (blake : List Nat → EntryHash) (fuel : Nat) (s : MerkleState)
    (time : Nat) (author : List Nat) (message : List Nat) :
    Except RunError (EntryHash × MerkleState) := do
  let s ← apply_actions_to_staging_area blake s
  let (staged_root, s) ← get_staged_root blake s
  let staged_root_hash := hash_tree blake staged_root
  let parent_commit_hash := s.last_commit_hash
  let new_commit : Commit :=
    { root_hash := staged_root_hash, parent_commit_hash := parent_commit_hash,
      time := time, author := author, message := message }
  let entry := Entry.commit new_commit
  let (_, s) ← put_to_staging_area s (hash_commit blake new_commit) entry
  let s ← persist_staged_entry_to_db blake fuel s entry
  let s := { s with staged := [], staged_indices := [] }
  let last_commit_hash := hash_commit blake new_commit
  Except.ok (last_commit_hash, { s with last_commit_hash := some last_commit_hash })

/-- Model of `MerkleStorage::key_to_string`: join the segments with `/` (byte 47). -/
def key_to_string (key : ContextKey) : List Nat :=
  match key with
  | [] => []
  | seg :: rest => rest.foldl (fun acc s => acc ++ [47] ++ s) seg

/-- Split a byte string at every `/` (byte 47), the inverse direction of
`MerkleStorage::string_to_key`. -/
def string_to_key (s : List Nat) : ContextKey :=
  match s.foldr (fun b acc =>
    match acc with
    | [] => if b = 47 then [[], []] else [[b]]
    | seg :: rest => if b = 47 then [] :: seg :: rest else (b :: seg) :: rest) [] with
  | [] => [[]]
  | l => l

/-- Model of `MerkleStorage::get_key_values_from_tree_recursively`: collect every
`(key, blob)` pair beneath `entry`.  A failing `get_entry` on a tree
child is swallowed (`Err(_) => Ok(())` in the source) — the model only
lets genuine panics through; a commit resolves its root and recurses.
The unbounded Rust recursion again takes a fuel bound. -/
def get_key_values_from_tree_recursively (blake : List Nat → EntryHash) :
    Nat → MerkleState → List Nat → Entry →
      Except RunError (List (ContextKey × ContextValue))
  | 0, _, _, _ => Except.error (RunError.panicked "get_key_values_from_tree_recursively: recursion budget exhausted")
  | Nat.succ fuel, s, path, entry =>
    match entry with
    | Entry.blob b => Except.ok [(string_to_key path, b)]
    | Entry.tree t =>
      t.foldlM (fun acc kv => do
        let fullpath := path ++ [47] ++ kv.1
        match get_entry s kv.2.entry_hash with
        | Except.error (RunError.panicked m) => Except.error (RunError.panicked m)
        | Except.error (RunError.merkle _) => Except.ok acc
        | Except.ok e => do
          let l ← get_key_values_from_tree_recursively blake fuel s fullpath e
          Except.ok (acc ++ l)) []
    | Entry.commit c => do
      match get_entry s c.root_hash with
      | Except.error err => Except.error err
      | Except.ok e => get_key_values_from_tree_recursively blake fuel s path e

/-- Model of `MerkleStorage::_get_key_values_by_prefix`, under a
shortened Lean identifier: find the subtree at the prefix, collect
every blob beneath it, and return `none` — not an empty list — when
nothing was collected. -/
def priv_get_key_values_by_pfx (blake : List Nat → EntryHash) (fuel : Nat)
    (s : MerkleState) (root_tree : Tree) (pfx : ContextKey) :
    Except RunError (Option (List (ContextKey × ContextValue))) := do
  let prefixed_tree ← find_tree s root_tree pfx
  let keyvalues ← prefixed_tree.foldlM (fun acc kv => do
    let entry ← get_entry s kv.2.entry_hash
    let delimiter : List Nat := if pfx.isEmpty then [] else [47]
    let fullpath := key_to_string pfx ++ delimiter ++ kv.1
    let l ← get_key_values_from_tree_recursively blake fuel s fullpath entry
    Except.ok (acc ++ l)) []
  if keyvalues.isEmpty then Except.ok none else Except.ok (some keyvalues)

/-- Model of `MerkleStorage::get_key_values_by_prefix`, under the same
shortened Lean identifier scheme: public variant reading from the
commit named by `context_hash`. -/
def get_key_values_by_pfx (blake : List Nat → EntryHash) (fuel : Nat)
    (s : MerkleState) (context_hash : EntryHash) (pfx : ContextKey) :
    Except RunError (Option (List (ContextKey × ContextValue))) := do
  let commit ← get_commit s context_hash
  let root_tree ← get_tree s commit.root_hash
  priv_get_key_values_by_pfx blake fuel s root_tree pfx

/-- Concrete run for C2: on a fresh store, `set(["a"], [1])` followed by
`get(["a"])` with no intervening commit or checkout ("a" is byte 97). -/
def c2_run : Except RunError ContextValue := do
  let ((), s) ← set emptyStore [[97]] [1]
  let (v, _) ← get idHash s [[97]]
  Except.ok v

/-- Concrete run for C3: commit a genesis commit `C0`, `checkout(C0)`,
then commit again with no intervening mutation; the result records
whether the second commit hash equals `C0`. -/
def c3_run : Except RunError Bool := do
  let (c0, s) ← commit idHash 100 emptyStore 0 [] []
  let ((), s) ← checkout s c0
  let (c1, _) ← commit idHash 100 s 0 [] []
  Except.ok (decide (c1 = c0))

/-- Concrete run for C4: replay `set(["a"], [1]); copy(["x"], ["b"])`
(the source path "x" does not exist) at commit time, then follow the
committed root's node under "b" to the entry it references
("a" = 97, "b" = 98, "x" = 120). -/
def c4_run : Except RunError Entry := do
  let ((), s) ← set emptyStore [[97]] [1]
  let ((), s) ← copy s [[120]] [[98]]
  let (c, s) ← commit idHash 100 s 0 [] []
  let cm ← get_commit s c
  let root ← get_tree s cm.root_hash
  match treeGet root [98] with
  | some node => get_entry s node.entry_hash
  | none => Except.error (RunError.panicked "node under b missing")

/-- Concrete run for C5: commit an empty genesis `C0`, stage
`set(["b"], [5])`, `checkout(C0)`, commit, and read `["b"]` back from
the new commit ("b" = byte 98). -/
def c5_run : Except RunError ContextValue := do
  let (c0, s) ← commit idHash 100 emptyStore 0 [] []
  let ((), s) ← set s [[98]] [5]
  let ((), s) ← checkout s c0
  let (c2, s) ← commit idHash 100 s 1 [] []
  get_history s c2 [[98]]

/-- Concrete run for C6: `set([], [1])` (accepted without a key check)
followed by `commit`, which replays the action through
`compute_new_root_with_change` and its key-non-empty assertion. -/
def c6_run : Except RunError EntryHash := do
  let ((), s) ← set emptyStore [] [1]
  let (c, _) ← commit idHash 100 s 0 [] []
  Except.ok c

/-- Block hashes in the chain manager model (32 bytes in Rust). -/
abbrev BlockHash := List Nat

/-- The `validation_passes` set of a `MissingOperations` record queued in
`PeerState::queued_block_operations` (the other fields of the record do
not influence the handler branch modelled here). -/
structure MissingOperations where
  validation_passes : List Int
deriving DecidableEq

/-- The two request queues of `PeerState` that the `BlockHeader` and
`OperationsForBlocks` arms of
`ChainManager::process_network_channel_message` consult.  The
`MissingBlock` payloads of `queued_block_headers` are irrelevant to the
dispatch decision and are dropped. -/
structure SyncPeerState where
  queued_block_headers : List BlockHash
  queued_block_operations : List (BlockHash × MissingOperations)
deriving DecidableEq

/-- Dispatch decision of a message-handler arm: whether
`ctx.system.stop` was called on the peer, whether the message was
accepted for further processing, and the peer's updated queues. -/
structure HandleOutcome where
  stop_peer : Bool
  accepted : Bool
  peer : SyncPeerState
deriving DecidableEq

/-- The `PeerMessage::BlockHeader` arm (chain_manager.rs lines 450-497):
a queued hash is removed and processing continues (ingest, applicability
check — elided here); an unqueued hash only produces
`warn!("Received unexpected block header")` — the peer is not stopped
and nothing else happens. -/
def handle_block_header (peer : SyncPeerState) (block_hash : BlockHash) : HandleOutcome :=
  if block_hash ∈ peer.queued_block_headers then
    { stop_peer := false, accepted := true,
      peer := { peer with queued_block_headers := peer.queued_block_headers.erase block_hash } }
  else
    { stop_peer := false, accepted := false, peer := peer }

/-- The `PeerMessage::OperationsForBlocks` arm (chain_manager.rs lines
520-571): a queued `(block_hash, validation_pass)` pair is accepted (the
pass is removed; the follow-up storage processing and the possible
removal of the whole queue entry are elided); an unexpected validation
pass or an unknown block hash warns and calls
`ctx.system.stop(received.peer)`. -/
def handle_operations_for_blocks (peer : SyncPeerState) (block_hash : BlockHash)
    (validation_pass : Int) : HandleOutcome :=
  match assocGet peer.queued_block_operations block_hash with
  | some missing =>
    if validation_pass ∈ missing.validation_passes then
      let remaining : MissingOperations :=
        { validation_passes := missing.validation_passes.erase validation_pass }
      let queued := assocInsert peer.queued_block_operations block_hash remaining
      { stop_peer := false, accepted := true, peer := { peer with queued_block_operations := queued } }
    else
      { stop_peer := true, accepted := false, peer := peer }
  | none => { stop_peer := true, accepted := false, peer := peer }

/-- Per-peer bootstrap data used by
`ChainManager::resolve_is_bootstrapped`: the peer's `is_bootstrapped`
flag and `current_head_level` (`Option<i32>`), keyed by an opaque actor
identifier. -/
structure BootPeerState where
  id : Nat
  is_bootstrapped : Bool
  current_head_level : Option Int
deriving DecidableEq

/-- The `ChainManager` fields involved in bootstrap resolution. -/
structure ChainManagerState where
  peers : List BootPeerState
  current_head_local_level : Option Int
  is_bootstrapped : Bool
  num_of_peers_for_bootstrap_threshold : Nat
deriving DecidableEq

/-- The per-peer marking step inside `resolve_is_bootstrapped`: a not
yet bootstrapped peer becomes bootstrapped when
`0 < peer_level ≤ chain_manager_current_level` (levels defaulting to 0
via `unwrap_or`). -/
def mark_peer (lvl : Int) (p : BootPeerState) : BootPeerState :=
  let peer_level := p.current_head_level.getD 0
  if ¬p.is_bootstrapped ∧ peer_level > 0 ∧ peer_level ≤ lvl then
    { p with is_bootstrapped := true }
  else p

/-- Model of `ChainManager::resolve_is_bootstrapped` (chain_manager.rs lines
919-951): returns immediately once the node flag is set; otherwise marks
peers against the local head level and sets the node flag when the
bootstrapped-peer count reaches the threshold. -/
def resolve_is_bootstrapped (m : ChainManagerState) : ChainManagerState :=
  if m.is_bootstrapped then m
  else
    let lvl := m.current_head_local_level.getD 0
    let peers := m.peers.map (mark_peer lvl)
    let num_of_bootstrapped_peers := (peers.filter (fun p => p.is_bootstrapped)).length
    if m.num_of_peers_for_bootstrap_threshold ≤ num_of_bootstrapped_peers then
      { m with peers := peers, is_bootstrapped := true }
    else { m with peers := peers }

/-- Model of `ChainManager::update_local_current_head` (stats timing elided):
install the new head level and re-resolve the bootstrap flags. -/
def update_local_current_head (m : ChainManagerState) (new_level : Int) : ChainManagerState :=
  resolve_is_bootstrapped { m with current_head_local_level := some new_level }

/-- The chain-manager events that touch the state used by bootstrap
resolution: a successful block application (the only caller of
`update_local_current_head`), peer connect (`PeerBootstrapped::Success`
inserts a fresh `PeerState`), peer disconnect (removal from the map),
and a `CurrentBranch` head-level update (lines 407-410: only a strictly
higher level replaces the stored one). -/
inductive ChainEvent
  | blockApplied (level : Int)
  | peerConnected (id : Nat)
  | peerDisconnected (id : Nat)
  | peerBranchLevel (id : Nat) (level : Int)
deriving DecidableEq

/-- One chain-manager step of the bootstrap-relevant state. -/
def chain_step (m : ChainManagerState) : ChainEvent → ChainManagerState
  | ChainEvent.blockApplied level => update_local_current_head m level
  | ChainEvent.peerConnected id =>
    { m with peers := m.peers ++ [{ id := id, is_bootstrapped := false, current_head_level := none }] }
  | ChainEvent.peerDisconnected id =>
    { m with peers := m.peers.filter (fun p => p.id != id) }
  | ChainEvent.peerBranchLevel id level =>
    { m with peers := m.peers.map (fun p =>
        if p.id = id then
          match p.current_head_level with
          | none => { p with current_head_level := some level }
          | some l => if level > l then { p with current_head_level := some level } else p
        else p) }

/-- Rust `str::split(sep)` collected into parts ("a~b~c" gives three
parts, an empty string gives one empty part). -/
def rust_split_char (sep : Char) (s : List Char) : List (List Char) :=
  match s.foldr (fun c acc =>
    match acc with
    | [] => if c = sep then [[], []] else [[c]]
    | part :: rest => if c = sep then [] :: part :: rest else (c :: part) :: rest) [] with
  | [] => [[]]
  | l => l

/-- Digits-only parse of a natural number, `none` on an empty or
non-digit input. -/
def parse_digits (s : List Char) : Option Nat :=
  match s with
  | [] => none
  | _ =>
    s.foldl (fun acc c =>
      match acc with
      | none => none
      | some n => if c.isDigit then some (n * 10 + (c.toNat - 48)) else none) (some 0)

/-- Rust `str::parse::<i32>()`: optional sign, digits, i32 range. -/
def parse_i32 (s : List Char) : Option Int :=
  match s with
  | '-' :: rest => (parse_digits rest).bind fun n => if n ≤ 2 ^ 31 then some (-(n : Int)) else none
  | '+' :: rest => (parse_digits rest).bind fun n => if n < 2 ^ 31 then some (n : Int) else none
  | _ => (parse_digits s).bind fun n => if n < 2 ^ 31 then some (n : Int) else none

/-- The header/offset split at the top of `parse_block_hash`
(rpc/src/helpers.rs lines 446-472).  The `'~'` branch splits on `'~'`;
the `'-'` and `'+'` branches, as written in the source, also split on
`'~'` (helpers.rs lines 456 and 463), so a parameter like "head-1"
stays in one piece.  The `'+'` branch negates the parsed offset. -/
def split_header_and_offset (block_id_param : List Char) :
    Except String (List Char × Option Int) :=
  if block_id_param.contains '~' then
    match rust_split_char '~' block_id_param with
    | [a] => Except.ok (a, none)
    | [a, b] =>
      match parse_i32 b with
      | some n => Except.ok (a, some n)
      | none => Except.error "offset parse error"
    | _ => Except.error "Invalid block_id parameter"
  else if block_id_param.contains '-' then
    match rust_split_char '~' block_id_param with
    | [a] => Except.ok (a, none)
    | [a, b] =>
      match parse_i32 b with
      | some n => Except.ok (a, some n)
      | none => Except.error "offset parse error"
    | _ => Except.error "Invalid block_id parameter"
  else if block_id_param.contains '+' then
    match rust_split_char '~' block_id_param with
    | [a] => Except.ok (a, none)
    | [a, b] =>
      match parse_i32 b with
      | some n => Except.ok (a, some (n * -1))
      | none => Except.error "offset parse error"
    | _ => Except.error "Invalid block_id parameter"
  else Except.ok (block_id_param, none)

deriving instance DecidableEq for Except

/-- Concrete peer whose header queue holds one hash, used to exercise the
unexpected-header branch. -/
def c7_peer_headers : SyncPeerState :=
  { queued_block_headers := [[1]], queued_block_operations := [] }

/-- Concrete peer whose operations queue expects validation passes 0 and
1 for block `[4]`. -/
def c7_peer_operations : SyncPeerState :=
  { queued_block_headers := [],
    queued_block_operations := [([4], { validation_passes := [0, 1] })] }

/-- Concrete chain-manager state below the bootstrap threshold: one peer
at level 5, threshold 1, no local head yet. -/
def c8_state : ChainManagerState :=
  { peers := [{ id := 0, is_bootstrapped := false, current_head_level := some 5 }],
    current_head_local_level := none,
    is_bootstrapped := false,
    num_of_peers_for_bootstrap_threshold := 1 }

/-- Concrete chain-manager state that is already bootstrapped, used to
exercise flag stickiness. -/
def c8_boot_state : ChainManagerState :=
  { peers := [],
    current_head_local_level := some 2,
    is_bootstrapped := true,
    num_of_peers_for_bootstrap_threshold := 1 }

/-- Concrete store for the prefix-query witness: a commit `[5]` whose
root tree `[7]` holds one blob `[9]` under segment `[100]`. -/
def c10_commit : Commit :=
  { parent_commit_hash := none, root_hash := [7], time := 0, author := [], message := [] }

/-- Root tree of `c10_store`. -/
def c10_root : Tree := [([100], { node_kind := NodeKind.Leaf, entry_hash := [9] })]

/-- Backend contents for the prefix-query witness. -/
def c10_store : MerkleState :=
  { emptyStore with db := [([5], Entry.commit c10_commit), ([7], Entry.tree c10_root),
                          ([9], Entry.blob [1])] }

theorem encode_kind_eq_spec_tag (k : NodeKind) :
    encode_irmin_node_kind k = spec_kind_tag k := by
  cases k <;> rfl

theorem tree_entries_framing_eq_spec (t : Tree) :
    (t.flatMap fun kv =>
        encode_irmin_node_kind kv.2.node_kind ++ [kv.1.length % 256] ++ kv.1 ++
          be64 HASH_LEN ++ kv.2.entry_hash) = spec_tree_entries_framing t := by
  induction t with
  | nil => rfl
  | cons kv rest ih =>
    rw [List.flatMap_cons, ih]
    simp [spec_tree_entries_framing, spec_tree_entry_framing, encode_kind_eq_spec_tag, HASH_LEN]

/-- C1: for every Blob, Tree and Commit, the hash computed by the Merkle
store is the (abstract 32-byte variable-length BLAKE2b) digest `blake`
applied to exactly the spec's input framing: for a Blob the big-endian
u64 length then the bytes; for a Tree the u64 entry count then, per
entry in segment order, the 8-byte kind tag, the u8 segment length, the
segment, u64(32) and the child hash; for a Commit u64(32) and the root
hash, then u64(0) without a parent or u64(1), u64(32) and the parent
hash, then u64 time, u64 author length, author, u64 message length,
message.  The commit hypothesis records that Rust's `EntryHash` is a
32-byte array. -/
theorem c1_hash_equals_spec_framing (blake : List Nat → EntryHash) (b : ContextValue)
    (t : Tree) (c : Commit)
    (hp : Option.all (fun p => p.length == 32) c.parent_commit_hash = true) :
    hash_blob blake b = blake (spec_blob_framing b) ∧
    hash_tree blake t = blake (spec_tree_framing t) ∧
    hash_commit blake c = blake (spec_commit_framing c) := by
  refine ⟨rfl, ?_, ?_⟩
  · unfold hash_tree hash_tree_input spec_tree_framing
    rw [tree_entries_framing_eq_spec]
  · unfold hash_commit hash_commit_input spec_commit_framing
    cases hpc : c.parent_commit_hash with
    | none => rfl
    | some p =>
      rw [hpc] at hp
      have hlen : p.length = 32 := by simpa [Option.all] using hp
      simp [hlen, HASH_LEN]

/-- Witness for C1 at concrete inputs: the identity digest, blob `[97]`,
a one-entry tree and a commit with a 32-byte parent hash. -/
theorem c1_hash_equals_spec_framing_witness :
    (Option.all (fun p => p.length == 32)
      (Commit.mk (some (List.replicate 32 0)) (List.replicate 32 1) 5 [84] [77]).parent_commit_hash
        = true) ∧
    (hash_blob idHash [97] = idHash (spec_blob_framing [97]) ∧
     hash_tree idHash [([97], { node_kind := NodeKind.Leaf, entry_hash := List.replicate 32 2 })]
       = idHash (spec_tree_framing [([97], { node_kind := NodeKind.Leaf, entry_hash := List.replicate 32 2 })]) ∧
     hash_commit idHash (Commit.mk (some (List.replicate 32 0)) (List.replicate 32 1) 5 [84] [77])
       = idHash (spec_commit_framing (Commit.mk (some (List.replicate 32 0)) (List.replicate 32 1) 5 [84] [77]))) :=
  ⟨by decide,
   c1_hash_equals_spec_framing idHash [97]
     [([97], { node_kind := NodeKind.Leaf, entry_hash := List.replicate 32 2 })]
     (Commit.mk (some (List.replicate 32 0)) (List.replicate 32 1) 5 [84] [77]) (by decide)⟩

/-- C2 (code behaviour at the failing input): on a fresh store,
`set(["a"], [1])` followed by `get(["a"])` with no commit in between
returns `ValueNotFound` — `get` reads `current_stage_tree`, which `set`
never updates (the write sits in the action log until `commit`). -/
theorem c2_staged_write_invisible_to_get :
    c2_run = Except.error (RunError.merkle (MerkleError.ValueNotFound [[97]])) := by decide

/-- C3 (code behaviour at the failing input): after committing genesis
`C0` and checking it out, a `commit` with no intervening mutation does
not return `C0`: it builds a fresh commit whose parent is `C0` and
returns that new hash. -/
theorem c3_empty_commit_returns_new_hash : c3_run = Except.ok false := by decide

/-- C4 (code behaviour at the failing input): replaying
`set(["a"], [1]); copy(["x"], ["b"])` where the source path "x" does not
exist makes the committed root's node under "b" reference the empty
tree — a reachable empty Tree entry. -/
theorem c4_copy_missing_source_leaves_empty_tree : c4_run = Except.ok (Entry.tree []) := by decide

/-- C5 (code behaviour at the failing input): a `set(["b"], [5])` staged
before `checkout(C0)` survives the checkout (only `staged` and
`staged_indices` are reset, not the action log) and is replayed by the
next `commit`, whose tree then contains "b" → [5]. -/
theorem c5_checkout_keeps_pending_actions : c5_run = Except.ok [5] := by decide

/-- C6 counterexample: an empty key accepted by `set` panics at
`assert_eq!(key.is_empty(), false)` inside `compute_new_root_with_change`
when the action log is replayed by `commit` — a Rust panic, not a
returned `MerkleError`. -/
theorem c6_empty_key_set_panics_on_commit :
    c6_run = Except.error (RunError.panicked "compute_new_root_with_change: assert key non-empty") := by
  decide

/-- C6 (amended): read paths reject an empty key with the `KeyEmpty`
error (`get_from_tree` pops the key before anything else, and `get` on a
fresh store propagates it), but an empty key inside a staged set/delete
action is only caught by the assertion at commit time, as a panic. -/
theorem c6_empty_key_error_vs_panic :
    (∀ (s : MerkleState) (root_hash : EntryHash),
       get_from_tree s root_hash [] = Except.error (RunError.merkle MerkleError.KeyEmpty)) ∧
    (∀ blake : List Nat → EntryHash,
       get blake emptyStore [] = Except.error (RunError.merkle MerkleError.KeyEmpty)) ∧
    c6_run = Except.error (RunError.panicked "compute_new_root_with_change: assert key non-empty") := by
  refine ⟨fun s root_hash => rfl, fun blake => rfl, by decide⟩

/-- C9 (code behaviour at the failing input): the `'-'` and `'+'`
branches of `parse_block_hash` split on `'~'`, so "head-1" and "head+1"
come back unsplit with no offset, while "head~1" is split correctly. -/
theorem c9_minus_plus_split_on_tilde :
    split_header_and_offset "head-1".data = Except.ok ("head-1".data, none) ∧
    split_header_and_offset "head+1".data = Except.ok ("head+1".data, none) ∧
    split_header_and_offset "head~1".data = Except.ok ("head".data, some 1) := by
  refine ⟨by decide, by decide, by decide⟩

/-- C7 counterexample: a block header whose hash is not in the peer's
`queued_block_headers` does not make the synchronizer stop the peer —
the handler only logs a warning. -/
theorem c7_counterexample_header_peer_not_stopped :
    (handle_block_header c7_peer_headers [2]).stop_peer = false := by decide

/-- C7 (amended): an unrequested block header is ignored with only a
warning — the peer is not stopped and its queues are unchanged — while
an `OperationsForBlocks` message with an unknown block hash or an
unexpected validation pass does stop the peer (queues unchanged). -/
theorem c7_unexpected_message_dispatch :
    (∀ (peer : SyncPeerState) (h : BlockHash), h ∉ peer.queued_block_headers →
       handle_block_header peer h = { stop_peer := false, accepted := false, peer := peer }) ∧
    (∀ (peer : SyncPeerState) (bh : BlockHash) (vp : Int),
       assocGet peer.queued_block_operations bh = none →
       handle_operations_for_blocks peer bh vp
         = { stop_peer := true, accepted := false, peer := peer }) ∧
    (∀ (peer : SyncPeerState) (bh : BlockHash) (vp : Int) (mo : MissingOperations),
       assocGet peer.queued_block_operations bh = some mo →
       vp ∉ mo.validation_passes →
       handle_operations_for_blocks peer bh vp
         = { stop_peer := true, accepted := false, peer := peer }) := by
  refine ⟨?_, ?_, ?_⟩
  · intro peer h hmem
    simp [handle_block_header, hmem]
  · intro peer bh vp hq
    simp [handle_operations_for_blocks, hq]
  · intro peer bh vp mo hq hvp
    simp [handle_operations_for_blocks, hq, hvp]

/-- Witness for C7 at concrete peers: an unqueued header hash, an
unknown block in the operations queue, and an unexpected validation
pass. -/
theorem c7_unexpected_message_dispatch_witness :
    ([2] ∉ c7_peer_headers.queued_block_headers ∧
      handle_block_header c7_peer_headers [2]
        = { stop_peer := false, accepted := false, peer := c7_peer_headers }) ∧
    (assocGet c7_peer_headers.queued_block_operations [4] = none ∧
      handle_operations_for_blocks c7_peer_headers [4] 0
        = { stop_peer := true, accepted := false, peer := c7_peer_headers }) ∧
    (assocGet c7_peer_operations.queued_block_operations [4]
        = some { validation_passes := [0, 1] } ∧
      (2 : Int) ∉ ({ validation_passes := [0, 1] } : MissingOperations).validation_passes ∧
      handle_operations_for_blocks c7_peer_operations [4] 2
        = { stop_peer := true, accepted := false, peer := c7_peer_operations }) :=
  ⟨⟨by decide, c7_unexpected_message_dispatch.1 c7_peer_headers [2] (by decide)⟩,
   ⟨by decide, c7_unexpected_message_dispatch.2.1 c7_peer_headers [4] 0 (by decide)⟩,
   ⟨by decide, by decide,
    c7_unexpected_message_dispatch.2.2 c7_peer_operations [4] 2
      { validation_passes := [0, 1] } (by decide) (by decide)⟩⟩

/-- C8: the bootstrapped flag is monotone.  (1) `resolve_is_bootstrapped`
marks a peer bootstrapped exactly when its level satisfies
`0 < level ≤ local head level` (or it was already marked);
(2) on a not yet bootstrapped node the resolve step rewrites the peers
by that marking and sets the node flag exactly when the count of
bootstrapped peers reaches the threshold; (3) over every sequence of
chain-manager events, once the node flag is set no event clears it. -/
theorem c8_bootstrapped_monotone :
    (∀ (lvl : Int) (p : BootPeerState),
       ((mark_peer lvl p).is_bootstrapped = true ↔
         (p.is_bootstrapped = true ∨
           (0 < p.current_head_level.getD 0 ∧ p.current_head_level.getD 0 ≤ lvl)))) ∧
    (∀ m : ChainManagerState, m.is_bootstrapped = false →
       (resolve_is_bootstrapped m).peers
         = m.peers.map (mark_peer (m.current_head_local_level.getD 0)) ∧
       ((resolve_is_bootstrapped m).is_bootstrapped = true ↔
         m.num_of_peers_for_bootstrap_threshold ≤
           ((m.peers.map (mark_peer (m.current_head_local_level.getD 0))).filter
               (fun p => p.is_bootstrapped)).length)) ∧
    (∀ (events : List ChainEvent) (m : ChainManagerState), m.is_bootstrapped = true →
       (events.foldl chain_step m).is_bootstrapped = true) := by
  refine ⟨?_, ?_, ?_⟩
  · intro lvl p
    by_cases hb : p.is_bootstrapped = true
    · simp [mark_peer, hb]
    · by_cases hc : 0 < p.current_head_level.getD 0 ∧ p.current_head_level.getD 0 ≤ lvl
      · simp [mark_peer, hb, hc]
      · simp [mark_peer, hb, hc]
  · intro m hm
    unfold resolve_is_bootstrapped
    rw [hm]
    simp only [Bool.false_eq_true, if_false]
    split_ifs with ht
    · simpa using ht
    · simpa [hm] using ht
  · intro events
    induction events with
    | nil => intro m hm; simpa using hm
    | cons e rest ih =>
      intro m hm
      have hstep : (chain_step m e).is_bootstrapped = true := by
        cases e with
        | blockApplied lvl =>
          simp [chain_step, update_local_current_head, resolve_is_bootstrapped, hm]
        | peerConnected id => simpa [chain_step] using hm
        | peerDisconnected id => simpa [chain_step] using hm
        | peerBranchLevel id lvl => simpa [chain_step] using hm
      simpa [List.foldl_cons] using ih (chain_step m e) hstep

/-- Witness for C8: the resolve characterisation at a below-threshold
state, and flag stickiness over a concrete event sequence from an
already bootstrapped state. -/
theorem c8_bootstrapped_monotone_witness :
    (c8_state.is_bootstrapped = false ∧
      (resolve_is_bootstrapped c8_state).peers
         = c8_state.peers.map (mark_peer (c8_state.current_head_local_level.getD 0)) ∧
      ((resolve_is_bootstrapped c8_state).is_bootstrapped = true ↔
         c8_state.num_of_peers_for_bootstrap_threshold ≤
           ((c8_state.peers.map (mark_peer (c8_state.current_head_local_level.getD 0))).filter
               (fun p => p.is_bootstrapped)).length)) ∧
    (c8_boot_state.is_bootstrapped = true ∧
      (([ChainEvent.peerConnected 3, ChainEvent.peerDisconnected 3,
         ChainEvent.blockApplied 9].foldl chain_step c8_boot_state)).is_bootstrapped = true) :=
  ⟨⟨by decide, c8_bootstrapped_monotone.2.1 c8_state (by decide)⟩,
   ⟨by decide,
    c8_bootstrapped_monotone.2.2
      [ChainEvent.peerConnected 3, ChainEvent.peerDisconnected 3, ChainEvent.blockApplied 9]
      c8_boot_state (by decide)⟩⟩

theorem except_bind_eq_ok {ε α β : Type} {x : Except ε α} {f : α → Except ε β} {b : β}
    (h : (x >>= f) = Except.ok b) : ∃ a, x = Except.ok a ∧ f a = Except.ok b := by
  cases x with
  | error e => simp [Bind.bind, Except.bind] at h
  | ok a => exact ⟨a, rfl, by simpa [Bind.bind, Except.bind] using h⟩

theorem find_tree_missing_segment (s : MerkleState) (root : Tree) (k : Segment)
    (rest : List Segment) (h : treeGet root k = none) :
    find_tree s root (k :: rest) = Except.ok [] := by
  simp [find_tree, h]

theorem find_tree_blob_on_path (s : MerkleState) (root : Tree) (k : Segment)
    (rest : List Segment) (nd : Node) (v : ContextValue) (h1 : treeGet root k = some nd)
    (h2 : get_entry s nd.entry_hash = Except.ok (Entry.blob v)) :
    find_tree s root (k :: rest) = Except.ok [] := by
  simp [find_tree, h1, h2, Bind.bind, Except.bind]

theorem priv_pfx_empty_tree (blake : List Nat → EntryHash) (fuel : Nat) (s : MerkleState)
    (root : Tree) (pfx : ContextKey) (h : find_tree s root pfx = Except.ok []) :
    priv_get_key_values_by_pfx blake fuel s root pfx = Except.ok none := by
  simp [priv_get_key_values_by_pfx, h, Bind.bind, Except.bind, List.foldlM, pure, Except.pure]

theorem priv_pfx_never_ok_some_nil (blake : List Nat → EntryHash) (fuel : Nat)
    (s : MerkleState) (root : Tree) (pfx : ContextKey)
    (r : Option (List (ContextKey × ContextValue)))
    (h : priv_get_key_values_by_pfx blake fuel s root pfx = Except.ok r) : r ≠ some [] := by
  unfold priv_get_key_values_by_pfx at h
  obtain ⟨pt, hpt, h⟩ := except_bind_eq_ok h
  obtain ⟨kvs, hkvs, h⟩ := except_bind_eq_ok h
  cases kvs with
  | nil => simp at h; simp [← h]
  | cons a l =>
    simp at h
    rw [← h]
    intro hcontra
    simp at hcontra

/-- C10: for a known commit `C` and any prefix `p`, when nothing is
collected beneath `p` the prefix query answers `Ok(None)` — never
`Ok(Some [])` and not an error; in particular a prefix whose first
segment is absent, or whose path runs into a blob, makes `find_tree`
yield the empty tree and the query yield `Ok(None)`. -/
theorem c10_missing_prefix_is_ok_none :
    (∀ (blake : List Nat → EntryHash) (fuel : Nat) (s : MerkleState) (ch : EntryHash)
       (pfx : ContextKey) (r : Option (List (ContextKey × ContextValue))),
       get_key_values_by_pfx blake fuel s ch pfx = Except.ok r → r ≠ some []) ∧
    (∀ (blake : List Nat → EntryHash) (fuel : Nat) (s : MerkleState) (ch : EntryHash)
       (pfx : ContextKey) (cm : Commit) (root : Tree),
       get_commit s ch = Except.ok cm → get_tree s cm.root_hash = Except.ok root →
       find_tree s root pfx = Except.ok [] →
       get_key_values_by_pfx blake fuel s ch pfx = Except.ok none) ∧
    (∀ (s : MerkleState) (root : Tree) (k : Segment) (rest : List Segment),
       treeGet root k = none → find_tree s root (k :: rest) = Except.ok []) ∧
    (∀ (s : MerkleState) (root : Tree) (k : Segment) (rest : List Segment) (nd : Node)
       (v : ContextValue), treeGet root k = some nd →
       get_entry s nd.entry_hash = Except.ok (Entry.blob v) →
       find_tree s root (k :: rest) = Except.ok []) := by
  refine ⟨?_, ?_, ?_, ?_⟩
  · intro blake fuel s ch pfx r h
    unfold get_key_values_by_pfx at h
    obtain ⟨cm, hcm, h⟩ := except_bind_eq_ok h
    obtain ⟨root, hroot, h⟩ := except_bind_eq_ok h
    exact priv_pfx_never_ok_some_nil blake fuel s root pfx r h
  · intro blake fuel s ch pfx cm root hcm hroot hft
    unfold get_key_values_by_pfx
    rw [hcm]
    simp only [Bind.bind, Except.bind]
    rw [hroot]
    exact priv_pfx_empty_tree blake fuel s root pfx hft
  · exact find_tree_missing_segment
  · exact find_tree_blob_on_path

/-- Witness for C10 at a concrete store: a missing prefix gives
`find_tree = Ok []` and the public query gives `Ok(None)`, which is not
`Ok(Some [])`. -/
theorem c10_missing_prefix_is_ok_none_witness :
    (treeGet c10_root [111] = none ∧ find_tree c10_store c10_root [[111]] = Except.ok []) ∧
    (get_commit c10_store [5] = Except.ok c10_commit ∧
      get_tree c10_store c10_commit.root_hash = Except.ok c10_root ∧
      get_key_values_by_pfx idHash 3 c10_store [5] [[111]] = Except.ok none) ∧
    (get_key_values_by_pfx idHash 3 c10_store [5] [[111]] = Except.ok none →
      (none : Option (List (ContextKey × ContextValue))) ≠ some []) :=
  ⟨⟨by decide, c10_missing_prefix_is_ok_none.2.2.1 c10_store c10_root [111] [] (by decide)⟩,
   ⟨by decide, by decide,
    c10_missing_prefix_is_ok_none.2.1 idHash 3 c10_store [5] [[111]] c10_commit c10_root
      (by decide) (by decide) (by decide)⟩,
   fun h => c10_missing_prefix_is_ok_none.1 idHash 3 c10_store [5] [[111]] none h⟩

end Tezedge
